import Mathlib

/-!
Verification of the schema-model core of a Swift binding generator
(`generator/genlib/model.py`).

The development shallowly embeds the Python module: raw schema attribute
mappings become Lean structures, the class hierarchy of type nodes becomes an
inductive family, Python `Optional` fields become `Option`, Python truthiness
is made explicit, fallible code (dictionary lookups that may raise `KeyError`,
indexing that may raise `IndexError`) returns `Except`/`Option`.

Layers:
* raw member data and the length-pairing pass of `StructureType.__init__` /
  `FunctionPointerType.__init__` (dict comprehensions are last-write-wins, so
  the pairing maps pick the last member with a given key);
* enum construction (`EnumType.__init__`) with its short-circuiting
  `any(...)` scan;
* the linked view of the resolved type graph (`Ty`/`LMember`), over which the
  per-member selectors `c_type`, `swift_type`, `conversion` and
  `default_swift_value` are defined exactly as in the source;
* the two-pass link machinery (`Member.link`, `TypedefType.link`,
  `FunctionPointerType.link`, `Model.__init__`), with resolved references
  encoded registry-relatively by their registry key.

External collaborators that the repository imports but whose code is not part
of the module (the identifier-casing helpers of `nameutils` and the catalog of
conversion-strategy tokens of `typeconversion`) are modelled from the spec and
marked as such.
-/

namespace GenModel

/-! ## Python-style string utilities (kernel-reducible, over `List Char`) -/

/-- Truthiness of an optional Python string: `None` and `''` are falsy. -/
def optStrTruthy : Option String → Bool
  | none => false
  | some s => s ≠ ""

/-- Chars of a string, lower-cased (Python `str.lower`, ASCII fragment). -/
def pyLower (s : String) : String := ⟨s.data.map Char.toLower⟩

/-- Check whether `pat` is a prefix of `cs` (Python `str.startswith`). -/
def charsStartWith : List Char → List Char → Bool
  | [], _ => true
  | _ :: _, [] => false
  | p :: ps, c :: cs => p == c && charsStartWith ps cs

/-- Python `s.startswith(pat)`. -/
def pyStartsWith (s pat : String) : Bool := charsStartWith pat.data s.data

/-- Python `s.rstrip('f')`: drop all trailing `'f'` characters. -/
def rstripF (s : String) : String := ⟨(s.data.reverse.dropWhile (· == 'f')).reverse⟩

/-- Split a char list at every occurrence of `sep` (Python `str.split(sep)`,
single-char separator; adjacent separators yield empty fields). -/
def splitChars (sep : Char) : List Char → List (List Char)
  | [] => [[]]
  | c :: cs =>
    match splitChars sep cs with
    | [] => if c == sep then [[], []] else [[c]]
    | g :: gs => if c == sep then [] :: g :: gs else (c :: g) :: gs

/-- Python `s.split(',')`. -/
def pySplitComma (s : String) : List String := (splitChars ',' s.data).map String.mk

/-- Python `s.strip('{}')`: remove leading and trailing brace characters. -/
def pyStripBraces (s : String) : String :=
  ⟨((s.data.dropWhile fun c => c == '\x7b' || c == '\x7d').reverse.dropWhile
      fun c => c == '\x7b' || c == '\x7d').reverse⟩

/-- Python `s.strip()`: remove leading and trailing whitespace. -/
def pyStrip (s : String) : String :=
  ⟨((s.data.dropWhile Char.isWhitespace).reverse.dropWhile Char.isWhitespace).reverse⟩

/-- Join a list of strings with separator `sep` (Python `sep.join`). -/
def joinSep (sep : String) : List String → String
  | [] => ""
  | [s] => s
  | s :: ss => s ++ sep ++ joinSep sep ss

/-- Capitalize the first character of a word. -/
def capWord (s : String) : String :=
  match s.data with
  | [] => ""
  | c :: cs => ⟨c.toUpper :: cs⟩

/-- Modelled from the spec: the identifier-casing helper `pascal_case` of the
external `nameutils` module ("identifier-casing utilities (camel-case,
pascal-case, escaping of reserved identifiers) invoked to derive display
names").  Space-separated words are capitalized and concatenated. -/
def pascal_case (s : String) : String :=
  joinSep "" (((splitChars ' ' s.data).map String.mk).map capWord)

/-- Modelled from the spec: the identifier-casing helper `camel_case` of the
external `nameutils` module.  Like `pascal_case`, but the first word is kept
as written. -/
def camel_case (s : String) : String :=
  match (splitChars ' ' s.data).map String.mk with
  | [] => ""
  | w :: ws => joinSep "" (w :: ws.map capWord)

/-- Modelled from the spec: the `swift_safe` helper of the external
`nameutils` module escapes reserved identifiers; non-reserved names pass
through unchanged. -/
def swift_safe (s : String) : String :=
  if s ∈ ["repeat", "internal", "default", "init", "type"] then "`" ++ s ++ "`" else s

/-! ## Literal schema values and Python truthiness -/

/-- Schema literal values as they occur in `default`/`value` attributes:
integers, strings and booleans (the dynamically typed `Any` of the source,
restricted to the JSON scalar shapes the schema uses). -/
inductive PyLit : Type where
  | int (n : Int)
  | str (s : String)
  | bool (b : Bool)
deriving DecidableEq, Repr

/-- Python truthiness of a literal: `0`, `''` and `False` are falsy. -/
def litTruthy : PyLit → Bool
  | .int n => n ≠ 0
  | .str s => s ≠ ""
  | .bool b => b

/-- Python truthiness of an optional literal (`if self.default:`). -/
def litTruthyOpt : Option PyLit → Bool
  | none => false
  | some v => litTruthy v

/-- Python `str(value)` (note `str(True) = 'True'`). -/
def litStr : PyLit → String
  | .int n => toString n
  | .str s => s
  | .bool b => if b then "True" else "False"

/-- Python `value == 0 or value == '0'` for an optional literal.  Python's
`==` identifies `False` with `0`, so a `False` default also passes. -/
def litIsZeroLike : Option PyLit → Bool
  | some (.int n) => n == 0
  | some (.bool b) => !b
  | some (.str s) => s == "0"
  | none => false

/-! ## Raw member data (`Member.data` as read from the schema) -/

/-- Raw attributes of a structure member or function argument, as stored on
`Member.data`: `name`, `type` (a type-reference name), `annotation`,
`length`, `default`, `optional`, `tags`.  Missing keys are `none`/`[]`/
`false`, matching the `data.get(...)` defaults in the source. -/
structure MemberData where
  name : String
  typeRef : String
  annot : Option String := none
  length : Option String := none
  dflt : Option PyLit := none
  optional : Bool := false
  tags : List String := []
deriving DecidableEq, Repr, Inhabited

/-! ## Tag filtering (`_is_enabled`, `_is_member_enabled`) -/

/-- Embedding of `_is_enabled(data, enabled_tags)`: an item is enabled when it
declares no tags or filtering is off; otherwise all of its tags must be
enabled. -/
def is_enabled (tags : List String) (enabledTags : Option (List String)) : Bool :=
  if tags.isEmpty then true
  else match enabledTags with
    | none => true
    | some enabled => tags.all fun t => enabled.contains t

/-- Embedding of `_is_member_enabled(data)`: members/arguments tagged
`'upstream'` are excluded unconditionally. -/
def is_member_enabled (tags : List String) : Bool :=
  !(!tags.isEmpty && tags.contains "upstream")

/-- Member list of a container as built by `StructureType.__init__` /
`FunctionPointerType.__init__`: the raw members with upstream-tagged entries
dropped. -/
def enabledMembers (raw : List MemberData) : List MemberData :=
  raw.filter fun m => is_member_enabled m.tags

/-! ## Length pairing (`StructureType.__init__` lines 300-305,
`FunctionPointerType.__init__` lines 343-348; the two passes are verbatim
identical in the source) -/

/-- Index of the last element of `xs` satisfying `p`.  This is the value a
Python dict comprehension `{key(x): x for x in xs if cond(x)}` associates to a
key: later entries overwrite earlier ones, so `.get` returns the last match. -/
def lastIdxWhere (p : α → Bool) : List α → Option Nat
  | [] => none
  | x :: xs =>
    match lastIdxWhere p xs with
    | some j => some (j + 1)
    | none => if p x then some 0 else none

/-- Embedding of `member.length_member = members_by_name.get(member.length)`:
the last sibling whose `name` equals this member's `length` (the `.get` key
may be any string, including the empty one; a `None` length finds nothing). -/
def pair_length_member (ms : List MemberData) (i : Nat) : Option Nat :=
  match ms[i]? with
  | none => none
  | some m =>
    match m.length with
    | none => none
    | some l => lastIdxWhere (fun x => x.name == l) ms

/-- Embedding of `member.length_of = members_by_length.get(member.name)`: the
last sibling with a truthy `length` equal to this member's `name` (the
comprehension `{m.length: m for m in members if m.length}` filters falsy
lengths, so an empty-string `length` never produces a key). -/
def pair_length_of (ms : List MemberData) (i : Nat) : Option Nat :=
  match ms[i]? with
  | none => none
  | some m => lastIdxWhere (fun x => optStrTruthy x.length && x.length == some m.name) ms

/-! ## Enum construction (`EnumValue`, `EnumType.__init__`, `BitmaskType`) -/

/-- Raw attributes of one enum value: literal `name`, integer `value`,
feature `tags`. -/
structure EnumValueData where
  name : String
  value : Int := 0
  tags : List String := []
deriving DecidableEq, Repr, Inhabited

/-- Does a string start with a (decimal) digit?  Empty strings do not. -/
def startsWithDigit (s : String) : Bool :=
  match s.data with
  | [] => false
  | c :: _ => c.isDigit

/-- Embedding of `any(value['name'][0].isdigit() for value in values)`.
Python's `any` over a generator short-circuits at the first `True`, and
`name[0]` raises `IndexError` on an empty name, so the scan stops either at
the first digit-leading name (result `True`), at the first empty name
(exception), or at the end of the list (result `False`). -/
def anyLeadingDigit : List EnumValueData → Except Unit Bool
  | [] => .ok false
  | v :: vs =>
    match v.name.data with
    | [] => .error ()
    | c :: _ => if c.isDigit then .ok true else anyLeadingDigit vs

/-- An `EnumValue` node: its raw data plus the `requires_prefix` flag handed
down by the enclosing enum (line 118 of the source). -/
structure EnumValueNode where
  data : EnumValueData
  requiresPfx : Bool
deriving DecidableEq, Repr

/-- An `EnumType`/`BitmaskType` node after construction (`BitmaskType` only
overrides `c_name`, its constructor is the inherited one). -/
structure EnumTypeNode where
  name : String
  requiresPfx : Bool
  values : List EnumValueNode
deriving DecidableEq, Repr

/-- Embedding of `EnumType.__init__(name, data, enabled_tags)`: filter the
values through the tag filter, compute `requires_prefix` by the
short-circuiting scan, and stamp every surviving value with the flag.  The
`IndexError` a malformed (empty) name raises surfaces as `Except.error`. -/
def enumTypeInit (name : String) (values : List EnumValueData)
    (enabledTags : Option (List String)) : Except Unit EnumTypeNode :=
  let vs := values.filter fun v => is_enabled v.tags enabledTags
  match anyLeadingDigit vs with
  | .error e => .error e
  | .ok rp => .ok ⟨name, rp, vs.map fun v => ⟨v, rp⟩⟩

/-- Swift case name of an enum value (`EnumValue.swift_name`): prefix the raw
name with `'type '` when the enum requires disambiguation, then lower, camel
case and escape. -/
def enumValueSwiftName (v : EnumValueNode) : String :=
  swift_safe (camel_case (pyLower (if v.requiresPfx then "type " ++ v.data.name else v.data.name)))

/-! ## The linked type graph view

After `Model.__init__` has linked the graph, every member's `type` attribute
holds the resolved node and the pairing attributes `length_member` /
`length_of` hold the sibling computed by the pairing pass.  The view below
embeds that resolved object graph as a tree: `Ty` has one constructor per
Python class reachable as a member type (the class carries its
`data['category']` by construction of `Model.category_types`), and `LMember`
is a linked `Member` carrying its raw data, resolved type and pairing
back-references.  Cyclic sibling references are represented up to the depth
the selectors read (one level: `length_of.type.name` and
`length_member.default`). -/

/-- Names of `NativeType` nodes: the source's `c_name` dictionary (lines
58-75) is keyed by this fixed closed set, so a native node's name must belong
to it (anything else raises `KeyError` in every rendering path). -/
inductive NativeName : Type where
  | void
  | voidMutPtr
  | voidConstPtr
  | char
  | float
  | double
  | uint8
  | uint16
  | uint32
  | uint64
  | int32
  | int64
  | size_t
  | int
  | bool
deriving DecidableEq, Repr

/-- Schema name of a native type (the dictionary key in the source). -/
def NativeName.pyName : NativeName → String
  | .void => "void"
  | .voidMutPtr => "void *"
  | .voidConstPtr => "void const *"
  | .char => "char"
  | .float => "float"
  | .double => "double"
  | .uint8 => "uint8_t"
  | .uint16 => "uint16_t"
  | .uint32 => "uint32_t"
  | .uint64 => "uint64_t"
  | .int32 => "int32_t"
  | .int64 => "int64_t"
  | .size_t => "size_t"
  | .int => "int"
  | .bool => "bool"

/-- Embedding of `NativeType.c_name` (the fixed dictionary, lines 58-75). -/
def NativeName.cName : NativeName → String
  | .void => "Void"
  | .voidMutPtr => "UnsafeMutableRawPointer!"
  | .voidConstPtr => "UnsafeRawPointer!"
  | .char => "CChar"
  | .float => "Float"
  | .double => "Double"
  | .uint8 => "UInt8"
  | .uint16 => "UInt16"
  | .uint32 => "UInt32"
  | .uint64 => "UInt64"
  | .int32 => "Int32"
  | .int64 => "Int64"
  | .size_t => "Int"
  | .int => "Int32"
  | .bool => "Bool"

mutual
/-- A resolved type node, one constructor per Python class a member's `type`
can resolve to.  `enum`/`bitmask` carry their computed `requires_prefix`;
`structure_` carries its linked members; `funcPtr`/`function` carry their
linked arguments (`FunctionType` is the `category == 'function'` refinement of
`FunctionPointerType`; methods never appear in the registry). -/
inductive Ty : Type where
  | native (n : NativeName)
  | enum (name : String) (requiresPfx : Bool)
  | bitmask (name : String) (requiresPfx : Bool)
  | structure_ (name : String) (members : List LMember)
  | funcPtr (name : String) (args : List LMember)
  | function (name : String) (args : List LMember)
  | object (name : String)
  | typedef (name : String)

/-- A linked member/argument: raw data, resolved `type`, and the pairing
back-references stored by the enclosing container's constructor. -/
inductive LMember : Type where
  | mk (data : MemberData) (type : Ty) (length_member : Option LMember)
      (length_of : Option LMember)
end

/-- Raw data of a linked member. -/
def LMember.data : LMember → MemberData
  | .mk d _ _ _ => d

/-- Resolved type of a linked member. -/
def LMember.type : LMember → Ty
  | .mk _ t _ _ => t

/-- Pairing back-reference: the sibling this member's `length` names. -/
def LMember.length_member : LMember → Option LMember
  | .mk _ _ lm _ => lm

/-- Pairing back-reference: the sibling whose `length` names this member. -/
def LMember.length_of : LMember → Option LMember
  | .mk _ _ _ lo => lo

/-- Schema name of a resolved type node (`Type.name` / the native name). -/
def Ty.name : Ty → String
  | .native n => n.pyName
  | .enum nm _ => nm
  | .bitmask nm _ => nm
  | .structure_ nm _ => nm
  | .funcPtr nm _ => nm
  | .function nm _ => nm
  | .object nm => nm
  | .typedef nm => nm

/-- Category tag of a resolved type node (`Type.category`, i.e.
`data['category']`, fixed by the `category_types` dispatch in
`Model.__init__`). -/
def Ty.category : Ty → String
  | .native _ => "native"
  | .enum _ _ => "enum"
  | .bitmask _ _ => "bitmask"
  | .structure_ _ _ => "structure"
  | .funcPtr _ _ => "function pointer"
  | .function _ _ => "function"
  | .object _ => "object"
  | .typedef _ => "typedef"

/-- Embedding of `c_name`: `NativeType` uses the fixed dictionary,
`BitmaskType` appends `'Flags'`, `FunctionType` uses the `'WGPUProc'` prefix,
every other node uses `'WGPU' + pascal_case(name)`. -/
def Ty.c_name : Ty → String
  | .native n => n.cName
  | .bitmask nm _ => "WGPU" ++ pascal_case nm ++ "Flags"
  | .function nm _ => "WGPUProc" ++ pascal_case nm
  | t => "WGPU" ++ pascal_case (Ty.name t)

/-- Embedding of `swift_name`: `NativeType` reuses its `c_name`; every other
node uses `pascal_case(name.lower())`. -/
def Ty.swift_name : Ty → String
  | .native n => n.cName
  | t => pascal_case (pyLower (Ty.name t))

/-- Embedding of `FunctionPointerType.is_callback` (also inherited by the
`function`/method refinements): `any(arg.name == 'userdata' for arg in
self.args)`. -/
def Ty.is_callback : Ty → Bool
  | .funcPtr _ args => args.any fun a => a.data.name == "userdata"
  | .function _ args => args.any fun a => a.data.name == "userdata"
  | _ => false

/-- Embedding of `FunctionPointerType.callback_function_name`:
`camel_case(self.name.lower())` (only meaningful on function-pointer-like
nodes, the only ones the source calls it on). -/
def Ty.callback_function_name : Ty → String
  | t => camel_case (pyLower (Ty.name t))

/-- Does `isinstance(t, FunctionPointerType)` hold?  True for the
`function pointer` class and its `function` refinement (methods never occur
as member types). -/
def Ty.isFunctionPointerClass : Ty → Bool
  | .funcPtr _ _ => true
  | .function _ _ => true
  | _ => false

/-- Does `isinstance(t, StructureType)` hold? -/
def Ty.isStructureClass : Ty → Bool
  | .structure_ _ _ => true
  | _ => false

/-! ## Value rendering (`get_swift_value` and its overrides) -/

/-- Embedding of `Member.swift_name`: names containing a space are lowered and
camel-cased, plain names are only escaped. -/
def memberSwiftName (d : MemberData) : String :=
  if d.name.data.contains ' ' then swift_safe (camel_case (pyLower d.name))
  else swift_safe d.name

/-- Embedding of `NativeType.get_swift_value`: `WGPU_`-prefixed named
constants become a typed wrapper, `'NAN'` becomes `.nan`, float literals lose
their `'f'` suffix, everything else is `str(value)`. -/
def nativeSwiftValue (n : NativeName) (v : PyLit) : String :=
  match v with
  | .str s =>
    if pyStartsWith s "WGPU_" then n.cName ++ "(" ++ s ++ ")"
    else if s == "NAN" then ".nan"
    else if n = .float then rstripF s
    else s
  | v => litStr v

/-- Embedding of `EnumType.get_swift_value` (shared by `BitmaskType`): the
(possibly `'type '`-prefixed) literal, lowered and camel-cased, as a leading
dot case reference.  The source assumes a string literal here; a non-string
would raise `TypeError` in `'type ' + value` / `value.lower()`, which no
claim exercises, so the base rendering stands in for that dead branch. -/
def enumSwiftValue (requiresPfx : Bool) (v : PyLit) : String :=
  match v with
  | .str s => "." ++ camel_case (pyLower (if requiresPfx then "type " ++ s else s))
  | v => litStr v

mutual
/-- Embedding of `get_swift_value` dispatched over the class hierarchy:
`NativeType` and `EnumType`/`BitmaskType` use their overrides,
`StructureType` renders `.init(...)` from a brace-wrapped comma-separated
literal (zipping its members against the fields), and every other class uses
the base `Type.get_swift_value`, i.e. `str(value)`.  A non-string literal on
a structure would raise `AttributeError` (`value.strip` on a non-string) in
the source; no claim exercises it, the base rendering stands in. -/
def getSwiftValue : Ty → PyLit → String
  | .native n, v => nativeSwiftValue n v
  | .enum _ rp, v => enumSwiftValue rp v
  | .bitmask _ rp, v => enumSwiftValue rp v
  | .structure_ _ ms, v =>
    match v with
    | .str s => ".init(" ++ joinSep ", " (structValueArgs ms (pySplitComma (pyStripBraces s))) ++ ")"
    | v => litStr v
  | _, v => litStr v

/-- Embedding of the argument list of `StructureType.get_swift_value`:
`zip(self.members, values)` pairs members with the split fields (stopping at
the shorter list) and renders `f'{member.swift_name}: {member.type.get_swift_value(value.strip())}'`. -/
def structValueArgs : List LMember → List String → List String
  | .mk d ty _ _ :: ms, s :: ss =>
    (memberSwiftName d ++ ": " ++ getSwiftValue ty (.str (pyStrip s))) :: structValueArgs ms ss
  | _, _ => []
end

/-! ## Per-member type signatures (`Member.c_type`, `Member.swift_type`) -/

/-- Embedding of `Member.c_type` (lines 169-189). -/
def c_type (m : LMember) : String :=
  if m.data.annot == some "const*" then
    if (LMember.type m).name == "void" then "UnsafeRawPointer!"
    else if (LMember.type m).category == "object" then
      "UnsafePointer<" ++ (LMember.type m).c_name ++ "?>!"
    else "UnsafePointer<" ++ (LMember.type m).c_name ++ ">!"
  else if m.data.annot == some "*" then
    if (LMember.type m).name == "void" then "UnsafeMutableRawPointer!"
    else "UnsafeMutablePointer<" ++ (LMember.type m).c_name ++ ">!"
  else if (LMember.type m).category == "object" then (LMember.type m).c_name ++ "!"
  else (LMember.type m).c_name

/-- Tail of `Member.swift_type` shared by its three non-fallback branches
(lines 209-215): function-pointer-typed signatures are marked `@escaping`,
optional members get the `'?'` marker appended. -/
def swiftTypeDecorate (m : LMember) (s : String) : String :=
  let s := if (LMember.type m).category == "function pointer" then "@escaping " ++ s else s
  if m.data.optional then s ++ "?" else s

/-- Condition under which `Member.swift_type` chooses one of its three
idiomatic branches (string / collection / element type name, lines 193-204)
rather than falling back to `return self.c_type` (line 207). -/
def swiftTypeIdiomatic (m : LMember) : Bool :=
  ((LMember.type m).name == "char" && m.data.annot == some "const*")
  || (m.data.annot == some "const*" && optStrTruthy m.data.length)
  || (!optStrTruthy m.data.annot
      || (m.data.annot == some "const*" && (LMember.type m).category == "structure"))

/-- Embedding of `Member.swift_type` (lines 191-215).  Note the fallback
branch (line 207) returns `self.c_type` directly, skipping the `@escaping`
and `'?'` decoration. -/
def swift_type (m : LMember) : String :=
  if (LMember.type m).name == "char" && m.data.annot == some "const*" then
    swiftTypeDecorate m "String"
  else if m.data.annot == some "const*" && optStrTruthy m.data.length then
    swiftTypeDecorate m
      (if (LMember.type m).name == "void" then "UnsafeRawBufferPointer"
       else "[" ++ (LMember.type m).swift_name ++ "]")
  else if !optStrTruthy m.data.annot
      || (m.data.annot == some "const*" && (LMember.type m).category == "structure") then
    swiftTypeDecorate m ((LMember.type m).swift_name)
  else c_type m

/-! ## Conversion strategy selection (`Member.conversion`) -/

/-- Modelled from the spec: the catalog of named conversion strategies of the
external `typeconversion` module — "a fixed catalog of named conversion
strategies (opaque tokens consumed, never interpreted, by this core)".  One
constructor per token the selector can return; `callback` carries the
callback trampoline name the source passes to the `Conversion` constructor. -/
inductive Conversion : Type where
  | buffer_length_conversion
  | array_length_conversion
  | userdata_conversion
  | string_conversion
  | optional_string_conversion
  | buffer_conversion
  | enum_array_conversion
  | struct_array_conversion
  | object_array_conversion
  | implicit_array_conversion
  | optional_struct_conversion
  | struct_pointer_conversion
  | implicit_conversion
  | enum_conversion
  | bitmask_conversion
  | struct_conversion
  | optional_object_conversion
  | object_conversion
  | callback (functionName : String)
deriving DecidableEq, Repr

/-- Embedding of `Member.conversion` (lines 217-272), the priority-ordered
strategy selector. -/
def conversion (m : LMember) : Conversion :=
  match LMember.length_of m with
  | some arr =>
    if (LMember.type arr).name == "void" then .buffer_length_conversion
    else .array_length_conversion
  | none =>
    if m.data.name == "userdata" then .userdata_conversion
    else if (LMember.type m).name == "char" && m.data.annot == some "const*" then
      if m.data.optional then .optional_string_conversion else .string_conversion
    else if m.data.annot == some "const*" && optStrTruthy m.data.length then
      if (LMember.type m).name == "void" then .buffer_conversion
      else if (LMember.type m).category == "enum" then .enum_array_conversion
      else if (LMember.type m).category == "structure" then .struct_array_conversion
      else if (LMember.type m).category == "object" then .object_array_conversion
      else .implicit_array_conversion
    else if m.data.annot == some "const*" then
      if (LMember.type m).category == "structure" then
        if m.data.optional then .optional_struct_conversion else .struct_pointer_conversion
      else .implicit_conversion
    else if m.data.annot == some "*" then .implicit_conversion
    else if (LMember.type m).category == "enum" then .enum_conversion
    else if (LMember.type m).category == "bitmask" then .bitmask_conversion
    else if (LMember.type m).category == "structure" then .struct_conversion
    else if (LMember.type m).category == "object" then
      if m.data.optional then .optional_object_conversion else .object_conversion
    else if (LMember.type m).isFunctionPointerClass && (LMember.type m).is_callback then
      .callback ((LMember.type m).callback_function_name)
    else .implicit_conversion

/-- Statement-side companion for claim C1, following the spec's words: the
5-way array fan-out "keyed purely on element category" — raw buffer for the
void element, then array of enum / structure / object reference, array of
scalar otherwise.  A function of the element type alone. -/
def specArrayStrategy (t : Ty) : Conversion :=
  if t.name == "void" then .buffer_conversion
  else if t.category == "enum" then .enum_array_conversion
  else if t.category == "structure" then .struct_array_conversion
  else if t.category == "object" then .object_array_conversion
  else .implicit_array_conversion

/-! ## Default value derivation (`Member.default_swift_value`,
`StructureType.has_default_swift_initializer`) -/

/-- Python truthiness of an `Optional[str]` result (`all(member.default_swift_value ...)`
tests each value): `None` and `''` are falsy. -/
def swiftValTruthy : Option String → Bool
  | none => false
  | some s => s ≠ ""

/-- Does `self.length_member and (self.length_member.default == 0 or
self.length_member.default == '0')` hold? -/
def lengthMemberZeroDefault : Option LMember → Bool
  | none => false
  | some lm => litIsZeroLike (LMember.data lm).dflt

mutual
/-- Embedding of `Member.default_swift_value` (lines 278-290): optional
members default to `'nil'`; an array member whose paired length member
defaults to zero defaults to `'[]'`; a truthy declared default (`if
self.default:` tests truthiness, so the literal is read back with `getD`,
whose fallback is never consulted) renders through the element type's
`get_swift_value`; otherwise the structure-default fallback of lines 289-290
applies (Python falls off the end and returns `None` when it does not). -/
def default_swift_value : LMember → Option String
  | .mk d ty lm _ =>
    if d.optional then some "nil"
    else if lengthMemberZeroDefault lm then some "[]"
    else if litTruthyOpt d.dflt then some (getSwiftValue ty (d.dflt.getD (.int 0)))
    else structureTypeDefault d.annot ty

/-- Embedding of the final branch of `Member.default_swift_value` (lines
289-290): `isinstance(self.type, StructureType) and not self.annotation and
self.type.has_default_swift_initializer` yields
`f'{self.type.swift_name}()'` (`has_default_swift_initializer` appears as
`structMembersHaveDefaults`, its body on `StructureType`). -/
def structureTypeDefault (a : Option String) (ty : Ty) : Option String :=
  match ty with
  | .structure_ nm tms =>
    if !optStrTruthy a && structMembersHaveDefaults tms then
      some (Ty.swift_name (.structure_ nm tms) ++ "()")
    else none
  | _ => none

/-- Embedding of `StructureType.has_default_swift_initializer` =
`all(member.default_swift_value for member in self.swift_members)` with
`swift_members = [m for m in members if not m.length_of]`: the filter and the
short-circuiting `all` fused into one pass. -/
def structMembersHaveDefaults : List LMember → Bool
  | [] => true
  | m :: ms =>
    (if (LMember.length_of m).isSome then true
     else swiftValTruthy (default_swift_value m))
    && structMembersHaveDefaults ms
end

/-- Embedding of `StructureType.has_default_swift_initializer` as a property
of the type node (the source property exists only on `StructureType`; the
selector guards every call with `isinstance(self.type, StructureType)`). -/
def has_default_swift_initializer : Ty → Bool
  | .structure_ _ ms => structMembersHaveDefaults ms
  | _ => false

/-! ## The link pass (`Member.link`, `TypedefType.link`,
`FunctionPointerType.link`, `StructureType.link`, `ObjectType.link`,
`Model.__init__` lines 493-494)

The Python linker mutates nodes in place, replacing stored reference names by
the registry entry `types[name]` and raising `KeyError` when the name is
absent.  Here a node-in-linking-state stores the resolved reference
registry-relatively, as the registry key it resolved to (`types[k]` IS the
entry at key `k`, so the key is a faithful ownership-free encoding of the
reference, as §9 of the spec suggests); an unresolvable name surfaces as
`Except.error` carrying it. -/

/-- A `Member` in linking state: raw data plus the resolved type reference
(`None` before linking, the registry key afterwards). -/
structure MemberS where
  data : MemberData
  type : Option String := none
deriving DecidableEq, Repr

/-- A `FunctionPointerType`/`FunctionType`/`MethodType` in linking state: the
raw `returns` name, the resolved return type reference, and the argument
members (`FunctionType` and `MethodType` inherit `link` unchanged). -/
structure FuncS where
  returns : Option String := none
  returnType : Option String := none
  args : List MemberS := []
deriving DecidableEq, Repr

/-- A registry node in linking state.  `plain` covers the categories whose
`link` is the inherited no-op (`native`, `enum`, `bitmask`); `object` carries
its methods, each function-shaped. -/
inductive NodeS : Type where
  | plain
  | structure_ (members : List MemberS)
  | funcPtr (f : FuncS)
  | object (methods : List FuncS)
  | typedef (typeRef : String) (type : Option String)
deriving DecidableEq, Repr

/-- Does the registry contain an entry named `k` (`name in types` /
a non-raising `types[k]`)? -/
def containsKey (reg : List (String × NodeS)) (k : String) : Bool :=
  (reg.map Prod.fst).contains k

/-- Embedding of `Member.link`: `self.type = types[self.data['type']]`,
`KeyError` on a missing name. -/
def linkMember (reg : List (String × NodeS)) (m : MemberS) : Except String MemberS :=
  if containsKey reg m.data.typeRef then .ok ⟨m.data, some m.data.typeRef⟩
  else .error m.data.typeRef

/-- Link a member list in order, propagating the first error (the `for` loops
of `StructureType.link` / `FunctionPointerType.link`). -/
def linkMembers (reg : List (String × NodeS)) : List MemberS → Except String (List MemberS)
  | [] => .ok []
  | m :: ms =>
    match linkMember reg m with
    | .error e => .error e
    | .ok m' =>
      match linkMembers reg ms with
      | .error e => .error e
      | .ok ms' => .ok (m' :: ms')

/-- Embedding of the return-type resolution in `FunctionPointerType.link`:
only a truthy `returns` different from `'void'` is looked up (and assigned);
otherwise `return_type` keeps its current value. -/
def linkReturn (reg : List (String × NodeS)) (returns : Option String)
    (current : Option String) : Except String (Option String) :=
  match returns with
  | some r =>
    if r != "" && r != "void" then
      if containsKey reg r then .ok (some r) else .error r
    else .ok current
  | none => .ok current

/-- Embedding of `FunctionPointerType.link`: resolve the return type, then
link the arguments in order. -/
def linkFunc (reg : List (String × NodeS)) (f : FuncS) : Except String FuncS :=
  match linkReturn reg f.returns f.returnType with
  | .error e => .error e
  | .ok rt =>
    match linkMembers reg f.args with
    | .error e => .error e
    | .ok args' => .ok ⟨f.returns, rt, args'⟩

/-- Link a method list in order (`ObjectType.link`). -/
def linkFuncs (reg : List (String × NodeS)) : List FuncS → Except String (List FuncS)
  | [] => .ok []
  | f :: fs =>
    match linkFunc reg f with
    | .error e => .error e
    | .ok f' =>
      match linkFuncs reg fs with
      | .error e => .error e
      | .ok fs' => .ok (f' :: fs')

/-- Embedding of the per-node `link` dispatch: no-op for plain nodes, member
loop for structures, return-then-args for function-like nodes, method loop
for objects, single lookup for typedefs. -/
def linkNode (reg : List (String × NodeS)) : NodeS → Except String NodeS
  | .plain => .ok .plain
  | .structure_ ms =>
    match linkMembers reg ms with
    | .error e => .error e
    | .ok ms' => .ok (.structure_ ms')
  | .funcPtr f =>
    match linkFunc reg f with
    | .error e => .error e
    | .ok f' => .ok (.funcPtr f')
  | .object meths =>
    match linkFuncs reg meths with
    | .error e => .error e
    | .ok meths' => .ok (.object meths')
  | .typedef r _ =>
    if containsKey reg r then .ok (.typedef r (some r)) else .error r

/-- Link every entry of `todo` against the registry `reg`, in order, keeping
names; the first raised error aborts the whole pass (`for type_ in
self.types.values(): type_.link(self.types)` with exception propagation). -/
def linkEntries (reg : List (String × NodeS)) :
    List (String × NodeS) → Except String (List (String × NodeS))
  | [] => .ok []
  | (k, n) :: rest =>
    match linkNode reg n with
    | .error e => .error e
    | .ok n' =>
      match linkEntries reg rest with
      | .error e => .error e
      | .ok rest' => .ok ((k, n') :: rest')

/-- Embedding of the link pass of `Model.__init__` (lines 493-494): every
node of the built registry is linked against that same registry. -/
def modelLink (reg : List (String × NodeS)) : Except String (List (String × NodeS)) :=
  linkEntries reg reg

/-- Reference names a function-shaped node must resolve: the truthy non-void
return name, then the argument type names. -/
def funcRefs (f : FuncS) : List String :=
  (match f.returns with
   | some r => if r != "" && r != "void" then [r] else []
   | none => [])
  ++ f.args.map fun m => m.data.typeRef

/-- Reference names stored on a node that the link pass must resolve. -/
def nodeRefs : NodeS → List String
  | .plain => []
  | .structure_ ms => ms.map fun m => m.data.typeRef
  | .funcPtr f => funcRefs f
  | .object meths => (meths.map funcRefs).flatten
  | .typedef r _ => [r]

/-- All reference names stored anywhere in a model. -/
def modelRefs (reg : List (String × NodeS)) : List String :=
  (reg.map fun p => nodeRefs p.2).flatten

/-- Is an `Except` a success? -/
def isOkE : Except ε α → Bool
  | .ok _ => true
  | .error _ => false

/-! ## Auxiliary predicate for the optionality marker -/

/-- Does a string end with the optionality marker `'?'`? -/
def endsWithQmark (s : String) : Bool := s.data.getLast? == some '?'

/-! ## Concrete schema fragments used by witnesses and counterexamples -/

/-- Optional const-pointer array member of structure elements: paired as an
array (`const*` + truthy `length`) and marked optional at the same time. -/
def exArrayMember : LMember :=
  .mk ⟨"colors", "color", some "const*", some "color count", none, true, []⟩
    (.structure_ "color" []) none none

/-- Raw member whose `length` is the empty string (truthiness corner). -/
def exPairA : MemberData := ⟨"a", "uint32_t", none, some "", none, false, []⟩

/-- Raw member whose `name` is the empty string. -/
def exPairB : MemberData := ⟨"", "uint32_t", none, none, none, false, []⟩

/-- Raw length-field member `count`. -/
def exCount : MemberData := ⟨"count", "uint32_t", none, none, none, false, []⟩

/-- Raw array member `items` whose `length` names `count`. -/
def exItems : MemberData := ⟨"items", "uint32_t", some "const*", some "count", none, false, []⟩

/-- Raw `count` member carrying a literal default of `0`. -/
def exCountZeroData : MemberData := ⟨"count", "uint32_t", none, none, some (.int 0), false, []⟩

/-- Raw `items` member paired with `count`. -/
def exItemsData : MemberData := ⟨"items", "uint32_t", some "const*", some "count", none, false, []⟩

/-- Linked `count` member as stored inside its sibling's `length_member`. -/
def exCountInner : LMember := .mk exCountZeroData (.native .uint32) none none

/-- Linked array member `items` whose `length_member` is `count`. -/
def exItemsL : LMember := .mk exItemsData (.native .uint32) (some exCountInner) none

/-- Linked length member `count` (default `0`), the `length_of` of `items`. -/
def exCountL : LMember := .mk exCountZeroData (.native .uint32) none (some exItemsL)

/-- Optional const-pointer char member (string-branch witness). -/
def exOptString : LMember :=
  .mk ⟨"label", "char", some "const*", some "strlen", none, true, []⟩ (.native .char) none none

/-- Optional mutable-pointer member (native-ABI fallback branch). -/
def exOutPtr : LMember :=
  .mk ⟨"out", "uint32_t", some "*", none, none, true, []⟩ (.native .uint32) none none

/-- Optional member (derived default `'nil'`, truthy). -/
def exOptMember : LMember :=
  .mk ⟨"label", "char", none, none, none, true, []⟩ (.native .char) none none

/-- Plain member with no declared default (derived default absent). -/
def exNoDefault : LMember :=
  .mk ⟨"x", "uint32_t", none, none, none, false, []⟩ (.native .uint32) none none

/-- Callback argument named `userdata`. -/
def exUserdataArg : LMember :=
  .mk ⟨"userdata", "void *", none, none, none, false, []⟩ (.native .voidMutPtr) none none

/-- Enum value data `1x` / `2x` (digit-leading names). -/
def exEnumVals : List EnumValueData := [⟨"1x", 0, []⟩, ⟨"2x", 1, []⟩]

/-- The node `enumTypeInit` builds from `exEnumVals`. -/
def exEnumNode : EnumTypeNode :=
  ⟨"sample", true, [⟨⟨"1x", 0, []⟩, true⟩, ⟨⟨"2x", 1, []⟩, true⟩]⟩

/-- Enum value data where a digit-leading name precedes an empty name. -/
def exEnumValsEmpty : List EnumValueData := [⟨"1x", 0, []⟩, ⟨"", 1, []⟩]

/-- Non-optional member of a structure type, with a falsy declared default
(`0`) and no length pairing; the structure (`color`, no members) has a
default initializer. -/
def exStructZero : LMember :=
  .mk ⟨"color", "color", none, none, some (.int 0), false, []⟩ (.structure_ "color" []) none none

/-- Member data whose declared default is the falsy literal `0`. -/
def exPlainZeroData : MemberData := ⟨"flags", "uint32_t", none, none, some (.int 0), false, []⟩

/-- Small unlinked registry: a native, a typedef of it, a structure with one
member, and a function pointer returning it with a `userdata` argument. -/
def exReg : List (String × NodeS) :=
  [("uint32_t", .plain),
   ("alias", NodeS.typedef
      "uint32_t" none),
   ("desc", .structure_ [⟨⟨"count", "uint32_t", none, none, none, false, []⟩, none⟩]),
   ("cb", .funcPtr ⟨some "uint32_t", none,
      [⟨⟨"userdata", "uint32_t", none, none, none, false, []⟩, none⟩]⟩)]

/-- The linked form of `exReg`. -/
def exRegLinked : List (String × NodeS) :=
  [("uint32_t", .plain),
   ("alias", NodeS.typedef
      "uint32_t" (some "uint32_t")),
   ("desc", .structure_ [⟨⟨"count", "uint32_t", none, none, none, false, []⟩, some "uint32_t"⟩]),
   ("cb", .funcPtr ⟨some "uint32_t", some "uint32_t",
      [⟨⟨"userdata", "uint32_t", none, none, none, false, []⟩, some "uint32_t"⟩]⟩)]

/-! # Theorems -/

/-! ## Shared helper lemmas -/

/-- The spec-side array fan-out always yields one of the five array
strategies. -/
theorem specArrayStrategy_mem (t : Ty) :
    specArrayStrategy t = .buffer_conversion
    ∨ specArrayStrategy t = .enum_array_conversion
    ∨ specArrayStrategy t = .struct_array_conversion
    ∨ specArrayStrategy t = .object_array_conversion
    ∨ specArrayStrategy t = .implicit_array_conversion := by
  unfold specArrayStrategy
  split
  · exact Or.inl rfl
  split
  · exact Or.inr (Or.inl rfl)
  split
  · exact Or.inr (Or.inr (Or.inl rfl))
  split
  · exact Or.inr (Or.inr (Or.inr (Or.inl rfl)))
  · exact Or.inr (Or.inr (Or.inr (Or.inr rfl)))

/-- Appending the `'?'` marker makes `endsWithQmark` true. -/
theorem endsWithQmark_append (s : String) : endsWithQmark (s ++ "?") = true := by
  cases s with
  | mk l =>
    show ((String.mk l ++ "?").data.getLast? == some '?') = true
    have h : (String.mk l ++ "?").data = l ++ ['?'] := rfl
    rw [h, List.getLast?_concat]
    rfl

/-! ## Claim C1 -/

/-- Claim C1: for every structure member or function argument that is not
itself the length field of a sibling, is not named `userdata`, and whose
element type is not the character type, if its annotation is `const*` and it
has a (truthy) length field name, the selected conversion strategy is exactly
the five-way array fan-out determined solely by the element type — one of
raw buffer (void element), array of enum, array of structure, array of object
reference, array of scalar — and in particular the member's optional flag
plays no part (the hypotheses say nothing about it and the result is a
function of the element type alone). -/
theorem claim_C1_array_rule (m : LMember)
    (hlo : LMember.length_of m = none)
    (hname : m.data.name ≠ "userdata")
    (hchar : (LMember.type m).name ≠ "char")
    (hann : m.data.annot = some "const*")
    (hlen : optStrTruthy m.data.length = true) :
    conversion m = specArrayStrategy (LMember.type m)
    ∧ (conversion m = .buffer_conversion
       ∨ conversion m = .enum_array_conversion
       ∨ conversion m = .struct_array_conversion
       ∨ conversion m = .object_array_conversion
       ∨ conversion m = .implicit_array_conversion) := by
  have h1 : conversion m = specArrayStrategy (LMember.type m) := by
    unfold conversion specArrayStrategy
    rw [hlo]
    simp [hname, hchar, hann, hlen]
  exact ⟨h1, h1 ▸ specArrayStrategy_mem (LMember.type m)⟩

/-- Witness for C1: the optional `const*`+length member `exArrayMember` of
structure elements resolves to the array-of-structure strategy. -/
theorem claim_C1_witness :
    conversion exArrayMember = specArrayStrategy (LMember.type exArrayMember)
    ∧ (conversion exArrayMember = .buffer_conversion
       ∨ conversion exArrayMember = .enum_array_conversion
       ∨ conversion exArrayMember = .struct_array_conversion
       ∨ conversion exArrayMember = .object_array_conversion
       ∨ conversion exArrayMember = .implicit_array_conversion) :=
  claim_C1_array_rule exArrayMember rfl (by decide) (by decide) rfl (by decide)

/-! ## Claim C5 -/

/-- Claim C5 (amended): for every function-pointer type (and its `function`
refinement; methods inherit the same property), the derived flag
`is_callback` is true iff **at least one** of its arguments is named
`userdata` — the source uses `any(...)`, not an exactly-one test. -/
theorem claim_C5_is_callback (nm : String) (args : List LMember) :
    (Ty.is_callback (.funcPtr nm args) = true
      ↔ ∃ a ∈ args, (LMember.data a).name = "userdata")
    ∧ (Ty.is_callback (.function nm args) = true
      ↔ ∃ a ∈ args, (LMember.data a).name = "userdata") := by
  constructor <;>
    · show (args.any fun a => (LMember.data a).name == "userdata") = true ↔ _
      rw [List.any_eq_true]
      simp only [beq_iff_eq]

/-- Counterexample for C5: a function-pointer type with two arguments named
`userdata` still has `is_callback = true`, though the number of such
arguments is 2, not exactly one. -/
theorem claim_C5_counterexample :
    Ty.is_callback (.funcPtr "cb" [exUserdataArg, exUserdataArg]) = true
    ∧ (([exUserdataArg, exUserdataArg].filter
          fun a => (LMember.data a).name == "userdata").length = 2) :=
  ⟨rfl, rfl⟩

/-- Witness for C5: a single `userdata` argument makes the flag true. -/
theorem claim_C5_witness :
    Ty.is_callback (.funcPtr "cb" [exUserdataArg]) = true :=
  (claim_C5_is_callback "cb" [exUserdataArg]).1.mpr ⟨exUserdataArg, by simp, rfl⟩

/-! ## Claim C4 -/

/-- Claim C4 (amended): for every member marked optional, the derived target
type signature ends with the optionality marker `'?'` whenever one of the
three idiomatic signature branches applies (string, array/buffer collection,
element's own type name); a member that falls through to the native-ABI
fallback instead returns the C type verbatim (line 207 returns early), with
no optionality marker appended. -/
theorem claim_C4_optional_marker (m : LMember) (hopt : m.data.optional = true) :
    (swiftTypeIdiomatic m = true → endsWithQmark (swift_type m) = true)
    ∧ (swiftTypeIdiomatic m = false → swift_type m = c_type m) := by
  have hdec : ∀ s, endsWithQmark (swiftTypeDecorate m s) = true := by
    intro s
    unfold swiftTypeDecorate
    rw [hopt]
    exact endsWithQmark_append _
  constructor
  · intro hb
    unfold swift_type
    split
    · exact hdec _
    split
    · exact hdec _
    split
    · exact hdec _
    · rename_i h1 h2 h3
      exfalso
      unfold swiftTypeIdiomatic at hb
      rw [Bool.not_eq_true] at h1 h2 h3
      rw [h1, h2, h3] at hb
      simp at hb
  · intro hb
    unfold swiftTypeIdiomatic at hb
    rcases Bool.or_eq_false_iff.mp hb with ⟨hb', h3⟩
    rcases Bool.or_eq_false_iff.mp hb' with ⟨h1, h2⟩
    unfold swift_type
    rw [h1, h2, h3]
    rfl

/-- Counterexample for C4: the optional mutable-pointer member `exOutPtr`
falls through to the native-ABI fallback and its signature ends in `'!'`,
not the optionality marker. -/
theorem claim_C4_counterexample :
    (LMember.data exOutPtr).optional = true
    ∧ swift_type exOutPtr = "UnsafeMutablePointer<UInt32>!"
    ∧ endsWithQmark (swift_type exOutPtr) = false :=
  ⟨rfl, rfl, rfl⟩

/-- Witness for C4: the optional string member `exOptString` takes an
idiomatic branch and its signature ends with `'?'`. -/
theorem claim_C4_witness : endsWithQmark (swift_type exOptString) = true :=
  (claim_C4_optional_marker exOptString rfl).1 rfl

/-! ## Claim C2 -/

/-- An index returned by `lastIdxWhere` carries an element satisfying the
predicate. -/
theorem lastIdxWhere_extract {α : Type} {p : α → Bool} {xs : List α} {j : Nat}
    (h : lastIdxWhere p xs = some j) : ∃ x, xs[j]? = some x ∧ p x = true := by
  induction xs generalizing j with
  | nil => simp [lastIdxWhere] at h
  | cons x xs ih =>
    unfold lastIdxWhere at h
    cases hT : lastIdxWhere p xs with
    | some k =>
      rw [hT] at h
      cases h
      obtain ⟨y, hy, hp⟩ := ih hT
      exact ⟨y, by simpa using hy, hp⟩
    | none =>
      rw [hT] at h
      by_cases hp : p x = true
      · rw [if_pos hp] at h
        cases h
        exact ⟨x, by simp, hp⟩
      · rw [if_neg hp] at h
        cases h

/-- Claim C2 (amended): in a container's pairing pass, back-references are
mutual for the members the last-write-wins dictionaries actually select: if
`A` (at index `j`) is the **last** member whose truthy (non-empty) `length`
equals `B`'s name, and `B` (at index `i`) is the **last** member bearing its
name, then `B.length_of` is `A` and `A.length_member` is `B`.  (The original
unconditional claim fails when `A.length` is falsy or when duplicate keys
make the dictionaries pick a later member; see the counterexample.) -/
theorem claim_C2_pairing_mutual (ms : List MemberData) (i j : Nat) (B : MemberData)
    (hB : ms[i]? = some B)
    (hlen : lastIdxWhere (fun x => optStrTruthy x.length && x.length == some B.name) ms = some j)
    (hname : lastIdxWhere (fun x => x.name == B.name) ms = some i) :
    pair_length_of ms i = some j ∧ pair_length_member ms j = some i := by
  have h1 : pair_length_of ms i = some j := by
    unfold pair_length_of
    rw [hB]
    exact hlen
  refine ⟨h1, ?_⟩
  obtain ⟨A, hA, hpA⟩ := lastIdxWhere_extract hlen
  rw [Bool.and_eq_true] at hpA
  have hAl : A.length = some B.name := by
    have := hpA.2
    rwa [beq_iff_eq] at this
  unfold pair_length_member
  simp only [hA, hAl]
  exact hname

/-- Counterexample for C2: with `A.length = some ""` and `B.name = ""`,
`A.length` equals `B.name`, and `A.length_member` is indeed `B`, but
`B.length_of` is `None` rather than `A` (the `members_by_length`
comprehension filters out falsy lengths), so the claimed mutual invariant
fails as stated. -/
theorem claim_C2_counterexample :
    exPairA.length = some exPairB.name
    ∧ pair_length_member [exPairA, exPairB] 0 = some 1
    ∧ pair_length_of [exPairA, exPairB] 1 = none :=
  ⟨rfl, rfl, rfl⟩

/-- Witness for C2: the `count`/`items` pairing is mutual. -/
theorem claim_C2_witness :
    pair_length_of [exCount, exItems] 0 = some 1
    ∧ pair_length_member [exCount, exItems] 1 = some 0 :=
  claim_C2_pairing_mutual [exCount, exItems] 0 1 exCount rfl rfl rfl

/-! ## Claim C3 -/

/-- Characterization of the fused `filter`+`all` pass of
`has_default_swift_initializer`. -/
theorem structMembersHaveDefaults_iff (ms : List LMember) :
    structMembersHaveDefaults ms = true
    ↔ ∀ m ∈ ms, LMember.length_of m = none →
        swiftValTruthy (default_swift_value m) = true := by
  induction ms with
  | nil => simp [structMembersHaveDefaults]
  | cons m ms ih =>
    rw [structMembersHaveDefaults, Bool.and_eq_true, ih]
    constructor
    · rintro ⟨h1, h2⟩ x hx hlo
      rcases List.mem_cons.mp hx with rfl | hx
      · rwa [hlo, Option.isSome_none, if_neg (by simp)] at h1
      · exact h2 x hx hlo
    · intro h
      refine ⟨?_, fun x hx hlo => h x (List.mem_cons.mpr (Or.inr hx)) hlo⟩
      by_cases hlo : LMember.length_of m = none
      · rw [hlo, Option.isSome_none, if_neg (by simp)]
        exact h m (List.mem_cons.mpr (Or.inl rfl)) hlo
      · rw [if_pos (Option.isSome_iff_ne_none.mpr hlo)]

/-- Claim C3 (amended): for every structure type, the derived flag
`has_default_swift_initializer` is true iff every member that is **not the
length field of a sibling array** (`length_of` unset — the source's
`swift_members`, not "non-array members": the array member itself is
included, its hidden length sibling is excluded) has a **truthy** derived
default value; and changing any one such member's derived default to absent
flips the flag to false. -/
theorem claim_C3_default_initializer (nm : String) (ms : List LMember) :
    (has_default_swift_initializer (.structure_ nm ms) = true
      ↔ ∀ m ∈ ms, LMember.length_of m = none →
          swiftValTruthy (default_swift_value m) = true)
    ∧ ∀ i m', i < ms.length → LMember.length_of m' = none →
        default_swift_value m' = none →
        has_default_swift_initializer (.structure_ nm (ms.set i m')) = false := by
  refine ⟨structMembersHaveDefaults_iff ms, ?_⟩
  intro i m' hi hlo hdv
  rw [← Bool.not_eq_true]
  intro h
  have hmem : m' ∈ ms.set i m' := by
    have h2 : (ms.set i m')[i]? = some m' := by
      rw [List.getElem?_set_self]
      simpa using hi
    exact List.getElem?_mem h2
  have := (structMembersHaveDefaults_iff (ms.set i m')).mp h m' hmem hlo
  rw [hdv] at this
  simp [swiftValTruthy] at this

/-- Counterexample for C3: in the structure `{count (default 0), items
(const*, length 'count')}`, the flag is true — `items` (an array member)
derives `'[]'` and the length field `count` is excluded from the check — yet
the non-array member `count` (no annotation, no length of its own) has an
absent derived default, so the claimed "every non-array member has a
non-absent default" equivalence fails as stated. -/
theorem claim_C3_counterexample :
    has_default_swift_initializer (.structure_ "s" [exCountL, exItemsL]) = true
    ∧ default_swift_value exCountL = none
    ∧ (LMember.data exCountL).annot = none
    ∧ (LMember.data exCountL).length = none :=
  ⟨rfl, rfl, rfl, rfl⟩

/-- Witness for C3: replacing the single (defaulted) member of a structure by
one with an absent derived default flips the flag to false. -/
theorem claim_C3_witness :
    has_default_swift_initializer (.structure_ "s" ([exOptMember].set 0 exNoDefault)) = false :=
  (claim_C3_default_initializer "s" [exOptMember]).2 0 exNoDefault (by decide) rfl rfl

/-! ## Claim C9 -/

/-- Claim C9 (amended): for every non-optional member whose declared default
literal is falsy (`0`, `''`, or `False`) and whose paired length member (if
any) has no zero default, the derived default value is what an undeclared
default would produce — presence of an explicit default is tested by
truthiness of the literal, not by presence of the `default` key.  That
fallback is **absent** unless the member's type is a structure, the
annotation is falsy and the structure has a default initializer, in which
case it is the structure's zero-argument initializer call (the original
claim's unconditional "absent" misses this structure branch; see the
counterexample). -/
theorem claim_C9_falsy_default (d : MemberData) (ty : Ty) (lm lo : Option LMember)
    (v : PyLit)
    (hopt : d.optional = false)
    (hd : d.dflt = some v)
    (hfv : litTruthy v = false)
    (hlm : lengthMemberZeroDefault lm = false) :
    ((optStrTruthy d.annot = true ∨ has_default_swift_initializer ty = false) →
        default_swift_value (.mk d ty lm lo) = none)
    ∧ (optStrTruthy d.annot = false → has_default_swift_initializer ty = true →
        default_swift_value (.mk d ty lm lo) = some (Ty.swift_name ty ++ "()")) := by
  rw [default_swift_value]
  rw [hopt, hlm, hd]
  simp only [litTruthyOpt, hfv, Bool.false_eq_true, if_false]
  cases ty with
  | structure_ snm sms =>
    rw [has_default_swift_initializer]
    rw [structureTypeDefault]
    constructor
    · rintro (ha | hs)
      · simp [ha]
      · simp [hs]
    · intro ha hs
      simp [ha, hs, Ty.swift_name]
  | native n =>
    exact ⟨fun _ => rfl, fun _ h => by simp [has_default_swift_initializer] at h⟩
  | enum nm rp =>
    exact ⟨fun _ => rfl, fun _ h => by simp [has_default_swift_initializer] at h⟩
  | bitmask nm rp =>
    exact ⟨fun _ => rfl, fun _ h => by simp [has_default_swift_initializer] at h⟩
  | funcPtr nm args =>
    exact ⟨fun _ => rfl, fun _ h => by simp [has_default_swift_initializer] at h⟩
  | function nm args =>
    exact ⟨fun _ => rfl, fun _ h => by simp [has_default_swift_initializer] at h⟩
  | object nm =>
    exact ⟨fun _ => rfl, fun _ h => by simp [has_default_swift_initializer] at h⟩
  | typedef nm =>
    exact ⟨fun _ => rfl, fun _ h => by simp [has_default_swift_initializer] at h⟩

/-- Counterexample for C9: `exStructZero` satisfies every hypothesis of the
claim (non-optional, declared default `0` which is falsy, no length member),
yet its derived default is `'Color()'`, not absent: the structure-initializer
fallback fires after the falsy default is ignored. -/
theorem claim_C9_counterexample :
    (LMember.data exStructZero).optional = false
    ∧ (LMember.data exStructZero).dflt = some (.int 0)
    ∧ litTruthy (.int 0) = false
    ∧ LMember.length_member exStructZero = none
    ∧ default_swift_value exStructZero = some "Color()" :=
  ⟨rfl, rfl, by decide, rfl, rfl⟩

/-- Witness for C9: a falsy (`0`) default on a plain native-typed member
derives no default at all. -/
theorem claim_C9_witness :
    default_swift_value (.mk exPlainZeroData (.native .uint32) none none) = none :=
  (claim_C9_falsy_default exPlainZeroData (.native .uint32) none none (.int 0)
    rfl rfl (by decide) rfl).1 (Or.inr rfl)

/-! ## Claim C6 -/

/-- Success values of the short-circuiting digit scan: when the scan
completes with `b`, `b` is true iff some value's name starts with a digit. -/
theorem anyLeadingDigit_ok {vs : List EnumValueData} {b : Bool}
    (h : anyLeadingDigit vs = .ok b) :
    (b = true ↔ ∃ v ∈ vs, startsWithDigit v.name = true) := by
  induction vs generalizing b with
  | nil =>
    rw [anyLeadingDigit] at h
    cases h
    simp
  | cons v vs ih =>
    rw [anyLeadingDigit] at h
    rcases hnd : v.name.data with _ | ⟨c, cs⟩
    · simp only [hnd] at h
      cases h
    · simp only [hnd] at h
      by_cases hc : c.isDigit = true
      · rw [if_pos hc] at h
        cases h
        simp only [true_iff]
        refine ⟨v, List.mem_cons.mpr (Or.inl rfl), ?_⟩
        simp only [startsWithDigit, hnd]
        exact hc
      · rw [if_neg (by simpa using hc)] at h
        rw [ih h]
        constructor
        · rintro ⟨y, hy, hdy⟩
          exact ⟨y, List.mem_cons.mpr (Or.inr hy), hdy⟩
        · rintro ⟨y, hy, hdy⟩
          rcases List.mem_cons.mp hy with rfl | hy
          · simp only [startsWithDigit, hnd] at hdy
            exact absurd hdy hc
          · exact ⟨y, hy, hdy⟩

/-- Claim C6: for every enum or bitmask type that constructs successfully
(`BitmaskType` inherits the same constructor), `requires_prefix` is true iff
at least one of its values' literal names starts with a decimal digit, and
every value of the enum carries the same `requires_prefix` flag as the
enclosing enum. -/
theorem claim_C6_requires_disambiguation (nm : String) (values : List EnumValueData)
    (et : Option (List String)) (e : EnumTypeNode)
    (h : enumTypeInit nm values et = .ok e) :
    (e.requiresPfx = true ↔ ∃ v ∈ e.values, startsWithDigit v.data.name = true)
    ∧ ∀ v ∈ e.values, v.requiresPfx = e.requiresPfx := by
  rw [enumTypeInit] at h
  cases hA : anyLeadingDigit (values.filter fun v => is_enabled v.tags et) with
  | error e' =>
    rw [hA] at h
    cases h
  | ok rp =>
    rw [hA] at h
    cases h
    constructor
    · rw [anyLeadingDigit_ok hA]
      simp only [List.mem_map]
      constructor
      · rintro ⟨y, hy, hdy⟩
        exact ⟨⟨y, rp⟩, ⟨y, hy, rfl⟩, hdy⟩
      · rintro ⟨w, ⟨y, hy, rfl⟩, hdw⟩
        exact ⟨y, hy, hdw⟩
    · rintro w hw
      simp only [List.mem_map] at hw
      obtain ⟨y, _, rfl⟩ := hw
      rfl

/-- Witness for C6: the enum built from value names `1x`, `2x` requires the
prefix, some value name starts with a digit, and both values carry the
flag. -/
theorem claim_C6_witness :
    (exEnumNode.requiresPfx = true
      ↔ ∃ v ∈ exEnumNode.values, startsWithDigit v.data.name = true)
    ∧ ∀ v ∈ exEnumNode.values, v.requiresPfx = exEnumNode.requiresPfx :=
  claim_C6_requires_disambiguation "sample" exEnumVals none exEnumNode rfl

/-! ## Claim C10 -/

/-- Error characterization of the short-circuiting digit scan: the
`IndexError` fires iff some value has an empty name and every value before it
has a non-empty name that does not start with a digit. -/
theorem anyLeadingDigit_error_iff (vs : List EnumValueData) :
    anyLeadingDigit vs = .error ()
    ↔ ∃ pre v post, vs = pre ++ v :: post ∧ v.name = ""
        ∧ ∀ u ∈ pre, u.name ≠ "" ∧ startsWithDigit u.name = false := by
  induction vs with
  | nil =>
    rw [anyLeadingDigit]
    constructor
    · intro h
      cases h
    · rintro ⟨pre, v, post, h, -, -⟩
      exact absurd h.symm (List.append_ne_nil_of_right_ne_nil pre (by simp))
  | cons w vs ih =>
    rw [anyLeadingDigit]
    have hstr : ∀ u : EnumValueData, u.name.data = [] ↔ u.name = "" := by
      intro u
      cases hu : u.name with
      | mk l =>
        simp [String.ext_iff]
    rcases hnd : w.name.data with _ | ⟨c, cs⟩
    · simp only [hnd]
      constructor
      · intro _
        exact ⟨[], w, vs, rfl, (hstr w).mp hnd, by simp⟩
      · intro _
        trivial
    · simp only [hnd]
      have hwne : w.name ≠ "" := by
        intro hw
        rw [← hstr w] at hw
        rw [hnd] at hw
        cases hw
      by_cases hc : c.isDigit = true
      · rw [if_pos hc]
        constructor
        · intro h
          cases h
        · rintro ⟨pre, v, post, heq, hv, hpre⟩
          exfalso
          cases pre with
          | nil =>
            rw [List.nil_append] at heq
            cases heq
            exact hwne hv
          | cons q pre' =>
            rw [List.cons_append] at heq
            injection heq with h1 h2
            subst h1
            have hT := (hpre w (List.mem_cons.mpr (Or.inl rfl))).2
            simp only [startsWithDigit, hnd] at hT
            exact absurd hc (by simp [hT])
      · rw [if_neg (by simpa using hc)]
        rw [ih]
        have hwd : startsWithDigit w.name = false := by
          simp only [startsWithDigit, hnd]
          simpa using hc
        constructor
        · rintro ⟨pre, v, post, heq, hv, hpre⟩
          refine ⟨w :: pre, v, post, by rw [heq, List.cons_append], hv, ?_⟩
          rintro u hu
          rcases List.mem_cons.mp hu with rfl | hu
          · exact ⟨hwne, hwd⟩
          · exact hpre u hu
        · rintro ⟨pre, v, post, heq, hv, hpre⟩
          cases pre with
          | nil =>
            rw [List.nil_append] at heq
            cases heq
            exact absurd hv hwne
          | cons q pre' =>
            rw [List.cons_append] at heq
            injection heq with h1 h2
            subst h1
            exact ⟨pre', v, post, h2, hv, fun u hu => hpre u (List.mem_cons.mpr (Or.inr hu))⟩

/-- Claim C10 (amended): enum/bitmask construction is total when every
enabled value has a non-empty literal name; and construction fails exactly
when some enabled value has an empty name **and** every enabled value before
it is non-empty and not digit-leading — the `any(...)` generator
short-circuits at the first digit-leading name, so an empty name *after* a
digit-leading one does not fail (see the counterexample). -/
theorem claim_C10_construction_totality (nm : String) (values : List EnumValueData)
    (et : Option (List String)) :
    ((∀ v ∈ values.filter (fun v => is_enabled v.tags et), v.name ≠ "") →
        isOkE (enumTypeInit nm values et) = true)
    ∧ (isOkE (enumTypeInit nm values et) = false ↔
        ∃ pre v post, values.filter (fun v => is_enabled v.tags et) = pre ++ v :: post
          ∧ v.name = ""
          ∧ ∀ u ∈ pre, u.name ≠ "" ∧ startsWithDigit u.name = false) := by
  have base : isOkE (enumTypeInit nm values et) = false
      ↔ anyLeadingDigit (values.filter fun v => is_enabled v.tags et) = .error () := by
    rw [enumTypeInit]
    cases hA : anyLeadingDigit (values.filter fun v => is_enabled v.tags et) with
    | error u =>
      cases u
      simp [isOkE]
    | ok rp =>
      simp [isOkE]
  constructor
  · intro hne
    rw [← Bool.not_eq_false, base, anyLeadingDigit_error_iff]
    rintro ⟨pre, v, post, heq, hv, -⟩
    refine hne v ?_ hv
    rw [heq]
    exact List.mem_append.mpr (Or.inr (List.mem_cons.mpr (Or.inl rfl)))
  · rw [base, anyLeadingDigit_error_iff]

/-- Counterexample for C10: the value list `['1x', '']` contains an enabled
value with an empty name, yet construction succeeds (the digit scan
short-circuits at `'1x'` before reading the empty name), contradicting the
claim that construction fails for any enabled empty-named value. -/
theorem claim_C10_counterexample :
    enumTypeInit "e" exEnumValsEmpty none
      = .ok ⟨"e", true, [⟨⟨"1x", 0, []⟩, true⟩, ⟨⟨"", 1, []⟩, true⟩]⟩
    ∧ (⟨"", 1, []⟩ : EnumValueData) ∈ exEnumValsEmpty.filter (fun v => is_enabled v.tags none)
    ∧ (⟨"", 1, []⟩ : EnumValueData).name = "" :=
  ⟨rfl, by decide, rfl⟩

/-- Witness for C10: with all-non-empty enabled names, construction
succeeds. -/
theorem claim_C10_witness : isOkE (enumTypeInit "sample" exEnumVals none) = true :=
  (claim_C10_construction_totality "sample" exEnumVals none).1 (by decide)

/-! ## Claim C7 -/

/-- Success of `Member.link` is exactly resolvability of the stored name. -/
theorem linkMember_isOk (reg : List (String × NodeS)) (m : MemberS) :
    isOkE (linkMember reg m) = containsKey reg m.data.typeRef := by
  rw [linkMember]
  by_cases h : containsKey reg m.data.typeRef = true
  · rw [if_pos h, h]
    rfl
  · rw [if_neg h]
    rw [Bool.not_eq_true] at h
    rw [h]
    rfl

/-- Success of a member-list link is resolvability of every stored name. -/
theorem linkMembers_isOk (reg : List (String × NodeS)) (ms : List MemberS) :
    isOkE (linkMembers reg ms) = ms.all fun m => containsKey reg m.data.typeRef := by
  induction ms with
  | nil => rfl
  | cons m ms ih =>
    rw [linkMembers, List.all_cons]
    cases hm : linkMember reg m with
    | error e =>
      have hc : containsKey reg m.data.typeRef = false := by
        rw [← linkMember_isOk, hm]
        rfl
      rw [hc]
      rfl
    | ok m' =>
      have hc : containsKey reg m.data.typeRef = true := by
        rw [← linkMember_isOk, hm]
        rfl
      rw [hc, Bool.true_and, ← ih]
      cases hms : linkMembers reg ms with
      | error e => rfl
      | ok ms' => rfl

/-- Success of the return-type resolution is resolvability of the truthy
non-void return name. -/
theorem linkReturn_isOk (reg : List (String × NodeS)) (rs cur : Option String) :
    isOkE (linkReturn reg rs cur)
    = ((match rs with
        | some r => if r != "" && r != "void" then [r] else []
        | none => ([] : List String)).all (containsKey reg)) := by
  cases rs with
  | none => rfl
  | some r =>
    rw [linkReturn]
    by_cases hg : (r != "" && r != "void") = true
    · rw [if_pos hg]
      simp only [hg, if_true, List.all_cons, List.all_nil, Bool.and_true]
      by_cases hc : containsKey reg r = true
      · rw [if_pos hc, hc]
        rfl
      · rw [if_neg hc]
        rw [Bool.not_eq_true] at hc
        rw [hc]
        rfl
    · rw [if_neg hg]
      rw [Bool.not_eq_true] at hg
      simp only [hg, Bool.false_eq_true, if_false, List.all_nil]
      rfl

/-- All-resolvable over mapped reference names, in member form. -/
theorem memberRefs_all (reg : List (String × NodeS)) (ms : List MemberS) :
    (List.map (fun m => m.data.typeRef) ms).all (containsKey reg)
    = ms.all fun m => containsKey reg m.data.typeRef := by
  induction ms with
  | nil => rfl
  | cons m ms ih =>
    rw [List.map_cons, List.all_cons, List.all_cons, ih]

/-- Success of `FunctionPointerType.link` is resolvability of all the
function's reference names. -/
theorem linkFunc_isOk (reg : List (String × NodeS)) (f : FuncS) :
    isOkE (linkFunc reg f) = (funcRefs f).all (containsKey reg) := by
  rw [linkFunc, funcRefs, List.all_append]
  cases hR : linkReturn reg f.returns f.returnType with
  | error e =>
    have h1 := linkReturn_isOk reg f.returns f.returnType
    rw [hR] at h1
    rw [← h1]
    rfl
  | ok rt =>
    have h1 := linkReturn_isOk reg f.returns f.returnType
    rw [hR] at h1
    rw [← h1]
    have h2 := linkMembers_isOk reg f.args
    rw [memberRefs_all, ← h2]
    cases hM : linkMembers reg f.args with
    | error e => rfl
    | ok args' => rfl

/-- Success of a method-list link is resolvability of all their reference
names. -/
theorem linkFuncs_isOk (reg : List (String × NodeS)) (fs : List FuncS) :
    isOkE (linkFuncs reg fs) = ((fs.map funcRefs).flatten).all (containsKey reg) := by
  induction fs with
  | nil => rfl
  | cons f fs ih =>
    rw [linkFuncs, List.map_cons, List.flatten_cons, List.all_append]
    cases hf : linkFunc reg f with
    | error e =>
      have h1 := linkFunc_isOk reg f
      rw [hf] at h1
      rw [← h1]
      rfl
    | ok f' =>
      have h1 := linkFunc_isOk reg f
      rw [hf] at h1
      rw [← h1, ← ih]
      cases hfs : linkFuncs reg fs with
      | error e => rfl
      | ok fs' => rfl

/-- Success of a node's `link` is resolvability of all its stored reference
names. -/
theorem linkNode_isOk (reg : List (String × NodeS)) (n : NodeS) :
    isOkE (linkNode reg n) = (nodeRefs n).all (containsKey reg) := by
  cases n with
  | plain => rfl
  | structure_ ms =>
    rw [linkNode, nodeRefs]
    have h2 := linkMembers_isOk reg ms
    rw [memberRefs_all, ← h2]
    cases hM : linkMembers reg ms with
    | error e => rfl
    | ok ms' => rfl
  | funcPtr f =>
    rw [linkNode, nodeRefs]
    have h1 := linkFunc_isOk reg f
    rw [← h1]
    cases hf : linkFunc reg f with
    | error e => rfl
    | ok f' => rfl
  | object meths =>
    rw [linkNode, nodeRefs]
    have h1 := linkFuncs_isOk reg meths
    rw [← h1]
    cases hf : linkFuncs reg meths with
    | error e => rfl
    | ok meths' => rfl
  | typedef r t =>
    rw [linkNode, nodeRefs]
    by_cases hc : containsKey reg r = true
    · rw [if_pos hc]
      simp [hc, isOkE]
    · rw [if_neg hc]
      rw [Bool.not_eq_true] at hc
      simp [hc, isOkE]

/-- Success of an entry-list link is resolvability of all references stored
in those entries. -/
theorem linkEntries_isOk (reg l : List (String × NodeS)) :
    isOkE (linkEntries reg l) = ((l.map fun p => nodeRefs p.2).flatten).all (containsKey reg) := by
  induction l with
  | nil => rfl
  | cons p l ih =>
    obtain ⟨k, n⟩ := p
    rw [linkEntries, List.map_cons, List.flatten_cons, List.all_append]
    cases hn : linkNode reg n with
    | error e =>
      have h1 := linkNode_isOk reg n
      rw [hn] at h1
      rw [← h1]
      rfl
    | ok n' =>
      have h1 := linkNode_isOk reg n
      rw [hn] at h1
      rw [← h1, ← ih]
      cases hl : linkEntries reg l with
      | error e => rfl
      | ok l' => rfl

/-- Claim C7: the link pass of a model succeeds exactly when every stored
type-reference name (member types, argument types, typedef targets, truthy
non-void returns) resolves in the registry; an unresolvable name propagates
as an error and no linked model is produced (the pass returns the error
instead of any partially resolved or placeholder-bearing registry). -/
theorem claim_C7_link_totality (reg : List (String × NodeS)) :
    isOkE (modelLink reg) = (modelRefs reg).all (containsKey reg) := by
  rw [modelLink, modelRefs]
  exact linkEntries_isOk reg reg

/-! ## Claim C8 -/

/-- Relinking an already linked member is a no-op (under a registry with the
same key set). -/
theorem linkMember_stable {reg reg2 : List (String × NodeS)} {m m' : MemberS}
    (hk : ∀ k, containsKey reg2 k = containsKey reg k)
    (h : linkMember reg m = .ok m') : linkMember reg2 m' = .ok m' := by
  rw [linkMember] at h
  by_cases hc : containsKey reg m.data.typeRef = true
  · rw [if_pos hc] at h
    cases h
    rw [linkMember]
    dsimp only
    rw [hk, if_pos hc]
  · rw [if_neg hc] at h
    cases h

/-- Relinking an already linked member list is a no-op. -/
theorem linkMembers_stable {reg reg2 : List (String × NodeS)}
    (hk : ∀ k, containsKey reg2 k = containsKey reg k) :
    ∀ {ms ms' : List MemberS}, linkMembers reg ms = .ok ms' →
      linkMembers reg2 ms' = .ok ms' := by
  intro ms
  induction ms with
  | nil =>
    intro ms' h
    cases h
    rfl
  | cons m ms ih =>
    intro ms' h
    rw [linkMembers] at h
    cases hm : linkMember reg m with
    | error e =>
      rw [hm] at h
      cases h
    | ok m' =>
      rw [hm] at h
      cases hms : linkMembers reg ms with
      | error e =>
        rw [hms] at h
        cases h
      | ok ms'' =>
        rw [hms] at h
        cases h
        rw [linkMembers, linkMember_stable hk hm]
        rw [ih hms]

/-- Relinking an already resolved return type is a no-op. -/
theorem linkReturn_stable {reg reg2 : List (String × NodeS)} {rs cur rt : Option String}
    (hk : ∀ k, containsKey reg2 k = containsKey reg k)
    (h : linkReturn reg rs cur = .ok rt) : linkReturn reg2 rs rt = .ok rt := by
  cases rs with
  | none =>
    cases h
    rfl
  | some r =>
    rw [linkReturn] at h ⊢
    by_cases hg : (r != "" && r != "void") = true
    · rw [if_pos hg] at h ⊢
      by_cases hc : containsKey reg r = true
      · rw [if_pos hc] at h
        cases h
        rw [hk, if_pos hc]
      · rw [if_neg hc] at h
        cases h
    · rw [if_neg hg] at h ⊢

/-- Relinking an already linked function node is a no-op. -/
theorem linkFunc_stable {reg reg2 : List (String × NodeS)} {f f' : FuncS}
    (hk : ∀ k, containsKey reg2 k = containsKey reg k)
    (h : linkFunc reg f = .ok f') : linkFunc reg2 f' = .ok f' := by
  rw [linkFunc] at h
  cases hR : linkReturn reg f.returns f.returnType with
  | error e =>
    rw [hR] at h
    cases h
  | ok rt =>
    rw [hR] at h
    cases hM : linkMembers reg f.args with
    | error e =>
      rw [hM] at h
      cases h
    | ok args' =>
      rw [hM] at h
      cases h
      rw [linkFunc]
      dsimp only
      rw [linkReturn_stable hk hR, linkMembers_stable hk hM]

/-- Relinking an already linked method list is a no-op. -/
theorem linkFuncs_stable {reg reg2 : List (String × NodeS)}
    (hk : ∀ k, containsKey reg2 k = containsKey reg k) :
    ∀ {fs fs' : List FuncS}, linkFuncs reg fs = .ok fs' →
      linkFuncs reg2 fs' = .ok fs' := by
  intro fs
  induction fs with
  | nil =>
    intro fs' h
    cases h
    rfl
  | cons f fs ih =>
    intro fs' h
    rw [linkFuncs] at h
    cases hf : linkFunc reg f with
    | error e =>
      rw [hf] at h
      cases h
    | ok f' =>
      rw [hf] at h
      cases hfs : linkFuncs reg fs with
      | error e =>
        rw [hfs] at h
        cases h
      | ok fs'' =>
        rw [hfs] at h
        cases h
        rw [linkFuncs, linkFunc_stable hk hf]
        rw [ih hfs]

/-- Relinking an already linked node is a no-op. -/
theorem linkNode_stable {reg reg2 : List (String × NodeS)} {n n' : NodeS}
    (hk : ∀ k, containsKey reg2 k = containsKey reg k)
    (h : linkNode reg n = .ok n') : linkNode reg2 n' = .ok n' := by
  cases n with
  | plain =>
    cases h
    rfl
  | structure_ ms =>
    rw [linkNode] at h
    cases hM : linkMembers reg ms with
    | error e =>
      rw [hM] at h
      cases h
    | ok ms' =>
      rw [hM] at h
      cases h
      rw [linkNode, linkMembers_stable hk hM]
  | funcPtr f =>
    rw [linkNode] at h
    cases hf : linkFunc reg f with
    | error e =>
      rw [hf] at h
      cases h
    | ok f' =>
      rw [hf] at h
      cases h
      rw [linkNode, linkFunc_stable hk hf]
  | object meths =>
    rw [linkNode] at h
    cases hf : linkFuncs reg meths with
    | error e =>
      rw [hf] at h
      cases h
    | ok meths' =>
      rw [hf] at h
      cases h
      rw [linkNode, linkFuncs_stable hk hf]
  | typedef r t =>
    rw [linkNode] at h
    by_cases hc : containsKey reg r = true
    · rw [if_pos hc] at h
      cases h
      rw [linkNode, hk, if_pos hc]
    · rw [if_neg hc] at h
      cases h

/-- Linking preserves the name column of the registry. -/
theorem linkEntries_keys {reg : List (String × NodeS)} :
    ∀ {l l' : List (String × NodeS)}, linkEntries reg l = .ok l' →
      l'.map Prod.fst = l.map Prod.fst := by
  intro l
  induction l with
  | nil =>
    intro l' h
    cases h
    rfl
  | cons p l ih =>
    obtain ⟨k, n⟩ := p
    intro l' h
    rw [linkEntries] at h
    cases hn : linkNode reg n with
    | error e =>
      rw [hn] at h
      cases h
    | ok n' =>
      rw [hn] at h
      cases hl : linkEntries reg l with
      | error e =>
        rw [hl] at h
        cases h
      | ok l'' =>
        rw [hl] at h
        cases h
        rw [List.map_cons, List.map_cons, ih hl]

/-- Relinking an already linked entry list is a no-op. -/
theorem linkEntries_stable {reg reg2 : List (String × NodeS)}
    (hk : ∀ k, containsKey reg2 k = containsKey reg k) :
    ∀ {l l' : List (String × NodeS)}, linkEntries reg l = .ok l' →
      linkEntries reg2 l' = .ok l' := by
  intro l
  induction l with
  | nil =>
    intro l' h
    cases h
    rfl
  | cons p l ih =>
    obtain ⟨k, n⟩ := p
    intro l' h
    rw [linkEntries] at h
    cases hn : linkNode reg n with
    | error e =>
      rw [hn] at h
      cases h
    | ok n' =>
      rw [hn] at h
      cases hl : linkEntries reg l with
      | error e =>
        rw [hl] at h
        cases h
      | ok l'' =>
        rw [hl] at h
        cases h
        rw [linkEntries, linkNode_stable hk hn]
        rw [ih hl]

/-- Claim C8: for every model whose link pass succeeded once, running the
link pass again over the linked registry is a no-op — every resolved type
reference, return type and (construction-time, hence untouched)
pairing-related field keeps exactly its value after the first pass, i.e. the
second pass returns the linked registry unchanged. -/
theorem claim_C8_link_idempotent (reg reg' : List (String × NodeS))
    (h : modelLink reg = .ok reg') : modelLink reg' = .ok reg' := by
  rw [modelLink] at h ⊢
  have hkeys := linkEntries_keys h
  have hk : ∀ k, containsKey reg' k = containsKey reg k := by
    intro k
    rw [containsKey, containsKey, hkeys]
  exact linkEntries_stable hk h

/-- Witness for C8: relinking the concrete linked registry `exRegLinked`
returns it unchanged. -/
theorem claim_C8_witness : modelLink exRegLinked = .ok exRegLinked :=
  claim_C8_link_idempotent exReg exRegLinked rfl

end GenModel
